import Mathlib

/-!
Shallow embedding of `b2backup.py` (chiveturkey/backups): the chunked
encryption/decryption codec, the upload retry loop, the active-window
scheduler, and the verification-gated cleanup, together with theorems
settling the specification claims.

Bytes are modelled as `List Nat`; filenames and remote keys as `String`.
The PyNaCl `SecretBox` is an external library call and is modelled as an
abstract keyed authenticated cipher (`SecretBox` below): `encrypt` takes a
nonce index (the source draws a fresh random nonce per part; here the part
number indexes the nonce) and `decrypt` returns `none` on authentication
failure (PyNaCl raises `CryptoError`, which the source does not catch).
-/

set_option autoImplicit false

namespace B2Backup

/-- Errors a run of the codec can raise.  `emptyFileMmap` models the
`ValueError` Python's `mmap.mmap(fd, 0)` raises for a zero-length file
(`encrypt_archives` memory-maps the archive before chunking it);
`corruptPart n` models the uncaught `nacl.exceptions.CryptoError` raised
while `decrypt_archives` is processing part number `n`. -/
inductive BackupError where
  | emptyFileMmap
  | corruptPart (seq : Nat)
  deriving DecidableEq, Repr

/-- Abstract model of `nacl.secret.SecretBox(config['secret_key'])`: a keyed
authenticated cipher.  `encrypt i pt` is the ciphertext of `pt` under the
box's key with the fresh nonce drawn for part `i`; `decrypt ct` is `some pt`
on success and `none` when authentication fails (wrong key or tampering). -/
structure SecretBox where
  encrypt : Nat → List Nat → List Nat
  decrypt : List Nat → Option (List Nat)

/-- Fuel-indexed chunking loop: `encrypt_archives` reads the memory-mapped
archive in windows of `C` bytes (`volume_file_mmap.read(encrypted_file_part_size)`)
while `tell() <= last_byte`.  The fuel is the number of unread bytes, which
bounds the iteration count whenever `1 ≤ C`. -/
def chunksAux (C : Nat) : Nat → List Nat → List (List Nat)
  | 0, _ => []
  | fuel + 1, data =>
    if data = [] then [] else data.take C :: chunksAux C fuel (data.drop C)

/-- Split `data` into consecutive windows of `C` plaintext bytes (the final
window may be shorter), as the read loop of `encrypt_archives` does. -/
def chunks (C : Nat) (data : List Nat) : List (List Nat) :=
  chunksAux C data.length data

/-- The per-part loop body of `encrypt_archives`: starting at part number
`n` (the source starts at `part_number = 1`), encrypt each window with the
box and emit `(part_number, ciphertext)` pairs, incrementing the number per
window. -/
def encrypt_parts (box : SecretBox) : Nat → List (List Nat) → List (Nat × List Nat)
  | _, [] => []
  | n, c :: cs => (n, box.encrypt n c) :: encrypt_parts box (n + 1) cs

/-- `encrypt_archives` for one volume's archive byte stream: memory-map the
archive (raising for an empty file, as `mmap` does), split it into windows
of `C` bytes and encrypt each, producing the numbered part files
`...tar.gz.enc.partNNN` starting at part number 1. -/
def encrypt_archives (box : SecretBox) (C : Nat) (data : List Nat) :
    Except BackupError (List (Nat × List Nat)) :=
  if data = [] then .error .emptyFileMmap
  else .ok (encrypt_parts box 1 (chunks C data))

/-- The read loop of `decrypt_archives` over the part-file store: position
`i` of the list holds part number `seq + i` when that file exists (`none`
models a missing file).  The loop `while os.path.isfile(...)` stops at the
first missing part number; a failed authenticated decryption raises, which
surfaces here as `corruptPart` carrying the part number being processed. -/
def decrypt_archives_loop (box : SecretBox) :
    Nat → List (Option (List Nat)) → Except BackupError (List Nat)
  | _, [] => .ok []
  | _, none :: _ => .ok []
  | n, some ct :: rest =>
    match box.decrypt ct with
    | none => .error (.corruptPart n)
    | some pt => (decrypt_archives_loop box (n + 1) rest).map (fun tail => pt ++ tail)

/-- `decrypt_archives` for one volume: read parts in ascending order
starting at part number 1, decrypt each, and append the plaintexts to the
destination archive (opened in append mode `'ab'`, so an initial content
`init` stays in front). -/
def decrypt_archives (box : SecretBox) (init : List Nat)
    (store : List (Option (List Nat))) : Except BackupError (List Nat) :=
  (decrypt_archives_loop box 1 store).map (fun bs => init ++ bs)

/-- Consecutive part numbers `n, n+1, ..., n+k-1`, used to state that the
parts emitted by `encrypt_archives` are numbered consecutively. -/
def consec : Nat → Nat → List Nat
  | _, 0 => []
  | n, k + 1 => n :: consec (n + 1) k

-- Basic facts about the chunking loop.

theorem chunksAux_join (C : Nat) (hC : 1 ≤ C) :
    ∀ (fuel : Nat) (data : List Nat), data.length ≤ fuel →
      (chunksAux C fuel data).flatten = data := by
  intro fuel
  induction fuel with
  | zero =>
    intro data h
    have : data = [] := List.eq_nil_of_length_eq_zero (Nat.le_zero.mp h)
    simp [this, chunksAux]
  | succ fuel ih =>
    intro data h
    by_cases hd : data = []
    · simp [hd, chunksAux]
    · have hlen : 1 ≤ data.length := by
        cases data with
        | nil => exact absurd rfl hd
        | cons a l => simp
      have hdrop : (data.drop C).length ≤ fuel := by
        rw [List.length_drop]
        omega
      simp only [chunksAux, hd, if_false, List.flatten]
      rw [ih (data.drop C) hdrop]
      exact List.take_append_drop C data

theorem chunksAux_length (C : Nat) (hC : 1 ≤ C) :
    ∀ (fuel : Nat) (data : List Nat), data.length ≤ fuel →
      (chunksAux C fuel data).length = (data.length + C - 1) / C := by
  intro fuel
  induction fuel with
  | zero =>
    intro data h
    have hd : data = [] := List.eq_nil_of_length_eq_zero (Nat.le_zero.mp h)
    simp [hd, chunksAux, Nat.div_eq_of_lt (by omega : C - 1 < C)]
  | succ fuel ih =>
    intro data h
    by_cases hd : data = []
    · simp [hd, chunksAux, Nat.div_eq_of_lt (by omega : C - 1 < C)]
    · have hlen : 1 ≤ data.length := by
        cases data with
        | nil => exact absurd rfl hd
        | cons a l => simp
      have hdrop : (data.drop C).length ≤ fuel := by
        rw [List.length_drop]
        omega
      simp only [chunksAux, hd, if_false, List.length_cons]
      rw [ih (data.drop C) hdrop, List.length_drop]
      have hsplit : data.length + C - 1 = (data.length - 1) + C := by omega
      rw [hsplit, Nat.add_div_right _ (by omega : 0 < C)]
      rcases le_or_lt C data.length with hle | hlt
      · have e : data.length - C + C - 1 = data.length - 1 := by omega
        rw [e]
      · have h1 : data.length - C = 0 := by omega
        rw [h1]
        rw [Nat.div_eq_of_lt (by omega : 0 + C - 1 < C)]
        rw [Nat.div_eq_of_lt (by omega : data.length - 1 < C)]

theorem chunksAux_ne_nil (C : Nat) (hC : 1 ≤ C) :
    ∀ (fuel : Nat) (data : List Nat), ∀ c ∈ chunksAux C fuel data, c ≠ [] := by
  intro fuel
  induction fuel with
  | zero => intro data c hc; simp [chunksAux] at hc
  | succ fuel ih =>
    intro data c hc
    by_cases hd : data = []
    · simp [hd, chunksAux] at hc
    · simp only [chunksAux, hd, if_false, List.mem_cons] at hc
      rcases hc with hc | hc
      · subst hc
        cases data with
        | nil => exact absurd rfl hd
        | cons a l =>
          cases C with
          | zero => omega
          | succ k => simp [List.take]
      · exact ih (data.drop C) c hc

theorem chunksAux_length_of_dvd (C : Nat) (hC : 1 ≤ C) :
    ∀ (fuel : Nat) (data : List Nat), data.length ≤ fuel → C ∣ data.length →
      ∀ c ∈ chunksAux C fuel data, c.length = C := by
  intro fuel
  induction fuel with
  | zero => intro data _ _ c hc; simp [chunksAux] at hc
  | succ fuel ih =>
    intro data h hdvd c hc
    by_cases hd : data = []
    · simp [hd, chunksAux] at hc
    · have hlen : 1 ≤ data.length := by
        cases data with
        | nil => exact absurd rfl hd
        | cons a l => simp
      have hge : C ≤ data.length := Nat.le_of_dvd (by omega) hdvd
      simp only [chunksAux, hd, if_false, List.mem_cons] at hc
      rcases hc with hc | hc
      · subst hc
        simp [List.length_take]
        omega
      · have hdl : (data.drop C).length ≤ fuel := by
          rw [List.length_drop]; omega
        have hdvd' : C ∣ (data.drop C).length := by
          rw [List.length_drop]
          exact (Nat.dvd_sub' hdvd dvd_rfl)
        exact ih (data.drop C) hdl hdvd' c hc

theorem chunks_flatten (C : Nat) (hC : 1 ≤ C) (data : List Nat) :
    (chunks C data).flatten = data :=
  chunksAux_join C hC data.length data le_rfl

theorem chunks_length (C : Nat) (hC : 1 ≤ C) (data : List Nat) :
    (chunks C data).length = (data.length + C - 1) / C :=
  chunksAux_length C hC data.length data le_rfl

-- Facts about the encryption loop's numbering.

theorem encrypt_parts_map_fst (box : SecretBox) :
    ∀ (l : List (List Nat)) (n : Nat),
      (encrypt_parts box n l).map Prod.fst = consec n l.length := by
  intro l
  induction l with
  | nil => intro n; simp [encrypt_parts, consec]
  | cons c cs ih => intro n; simp [encrypt_parts, consec, ih]

theorem encrypt_parts_length (box : SecretBox) :
    ∀ (l : List (List Nat)) (n : Nat), (encrypt_parts box n l).length = l.length := by
  intro l
  induction l with
  | nil => intro n; simp [encrypt_parts]
  | cons c cs ih => intro n; simp [encrypt_parts, ih]

/-- Decoding the parts written by the encryption loop (each present on disk,
so modelled as `some`) reconstructs the concatenation of the plaintext
windows, whenever the box authenticates what it itself encrypted. -/
theorem decrypt_encrypt_parts (box : SecretBox)
    (hbox : ∀ n m, box.decrypt (box.encrypt n m) = some m) :
    ∀ (l : List (List Nat)) (n : Nat),
      decrypt_archives_loop box n ((encrypt_parts box n l).map (fun p => some p.2)) =
        .ok l.flatten := by
  intro l
  induction l with
  | nil => intro n; simp [encrypt_parts, decrypt_archives_loop]
  | cons c cs ih =>
    intro n
    simp only [encrypt_parts, List.map_cons, decrypt_archives_loop, hbox n c, ih (n + 1),
      Except.map, List.flatten_cons]

/-- A concrete box for witnesses: encryption is the identity and every
ciphertext authenticates, so it satisfies the round-trip contract of the
real cipher. -/
def idSecretBox : SecretBox := ⟨fun _ m => m, fun c => some c⟩

/-- A concrete box whose decryption rejects exactly the ciphertext `[0]`,
used to witness authentication-failure behaviour. -/
def rejectZeroBox : SecretBox :=
  ⟨fun _ m => m, fun c => if c = [0] then none else some c⟩

/-- C3 (amended: nonempty input): encoding a nonempty byte sequence into
encrypted parts and decoding those parts with the same box into an empty
destination reconstructs exactly the input, for every chunk size at least 1
and every box satisfying the cipher's round-trip contract. -/
theorem c3_roundtrip (box : SecretBox) (C : Nat) (data : List Nat)
    (hbox : ∀ n m, box.decrypt (box.encrypt n m) = some m)
    (hC : 1 ≤ C) (hdata : data ≠ []) :
    (encrypt_archives box C data).bind
      (fun parts => decrypt_archives box [] (parts.map (fun p => some p.2))) =
      .ok data := by
  simp only [encrypt_archives, if_neg hdata, Except.bind, decrypt_archives,
    decrypt_encrypt_parts box hbox, Except.map, chunks_flatten C hC, List.nil_append]

/-- C3 witness: a concrete round trip through the codec. -/
theorem c3_roundtrip_witness :
    (encrypt_archives idSecretBox 2 [1, 2, 3]).bind
      (fun parts => decrypt_archives idSecretBox [] (parts.map (fun p => some p.2))) =
      .ok [1, 2, 3] :=
  c3_roundtrip idSecretBox 2 [1, 2, 3] (fun _ _ => rfl) (by decide) (by decide)

/-- C3 counterexample: at the empty byte sequence the claim fails, because
`encrypt_archives` memory-maps the archive and `mmap` raises `ValueError`
for an empty file, so no parts are produced and nothing reconstructs `[]`. -/
theorem c3_counterexample :
    (encrypt_archives idSecretBox 1 []).bind
      (fun parts => decrypt_archives idSecretBox [] (parts.map (fun p => some p.2))) ≠
      .ok [] := by
  simp [encrypt_archives, Except.bind]

/-- C4 (amended: nonempty input): for input length `L ≥ 1` and chunk size
`C ≥ 1`, `encrypt_archives` produces exactly `⌈L / C⌉` parts numbered
consecutively from 1; no plaintext window is empty, and when `C` divides
`L` every window has exactly `C` plaintext bytes. -/
theorem c4_chunk_count (box : SecretBox) (C : Nat) (data : List Nat)
    (hC : 1 ≤ C) (hdata : data ≠ []) :
    ∃ parts, encrypt_archives box C data = .ok parts ∧
      parts.length = (data.length + C - 1) / C ∧
      parts.map Prod.fst = consec 1 parts.length ∧
      (∀ c ∈ chunks C data, c ≠ []) ∧
      (C ∣ data.length → ∀ c ∈ chunks C data, c.length = C) := by
  refine ⟨encrypt_parts box 1 (chunks C data), ?_, ?_, ?_, ?_, ?_⟩
  · simp [encrypt_archives, if_neg hdata]
  · rw [encrypt_parts_length, chunks_length C hC]
  · rw [encrypt_parts_map_fst, encrypt_parts_length]
  · exact chunksAux_ne_nil C hC data.length data
  · intro hdvd
    exact chunksAux_length_of_dvd C hC data.length data le_rfl hdvd

/-- C4 witness: six bytes with chunk size three give two full parts
numbered 1 and 2. -/
theorem c4_chunk_count_witness :
    ∃ parts, encrypt_archives idSecretBox 3 [0, 1, 2, 3, 4, 5] = .ok parts ∧
      parts.length = (([0, 1, 2, 3, 4, 5] : List Nat).length + 3 - 1) / 3 ∧
      parts.map Prod.fst = consec 1 parts.length ∧
      (∀ c ∈ chunks 3 [0, 1, 2, 3, 4, 5], c ≠ []) ∧
      (3 ∣ ([0, 1, 2, 3, 4, 5] : List Nat).length →
        ∀ c ∈ chunks 3 [0, 1, 2, 3, 4, 5], c.length = 3) :=
  c4_chunk_count idSecretBox 3 [0, 1, 2, 3, 4, 5] (by decide) (by decide)

/-- C4 counterexample: an empty input does not produce zero parts; the
`mmap` of the empty archive raises instead, so the encoder returns an
error rather than an empty part list. -/
theorem c4_counterexample :
    encrypt_archives idSecretBox 4 ([] : List Nat) = .error .emptyFileMmap ∧
      encrypt_archives idSecretBox 4 ([] : List Nat) ≠ .ok [] := by
  constructor
  · rfl
  · simp [encrypt_archives]

/-- Everything after the first missing part number is ignored by the read
loop of `decrypt_archives`, whatever it holds. -/
theorem decrypt_loop_gap (box : SecretBox) :
    ∀ (pre : List (List Nat)) (rest : List (Option (List Nat))) (n : Nat),
      decrypt_archives_loop box n (pre.map some ++ none :: rest) =
        decrypt_archives_loop box n (pre.map some) := by
  intro pre
  induction pre with
  | nil => intro rest n; simp [decrypt_archives_loop]
  | cons c cs ih =>
    intro rest n
    simp only [List.map_cons, List.cons_append, decrypt_archives_loop]
    cases h : box.decrypt c with
    | none => rfl
    | some pt => simp only [List.append_eq, ih rest (n + 1)]

/-- A part that fails authentication aborts the read loop with the error
carrying that part's number, when every earlier part authenticates. -/
theorem decrypt_loop_corrupt (box : SecretBox) :
    ∀ (pre : List (List Nat)) (ct : List Nat) (rest : List (Option (List Nat))) (n : Nat),
      (∀ p ∈ pre, (box.decrypt p).isSome) → box.decrypt ct = none →
      decrypt_archives_loop box n (pre.map some ++ some ct :: rest) =
        .error (.corruptPart (n + pre.length)) := by
  intro pre
  induction pre with
  | nil => intro ct rest n _ hct; simp [decrypt_archives_loop, hct]
  | cons c cs ih =>
    intro ct rest n hpre hct
    have hc : (box.decrypt c).isSome := hpre c (by simp)
    simp only [List.map_cons, List.cons_append, decrypt_archives_loop]
    cases h : box.decrypt c with
    | none => rw [h] at hc; simp at hc
    | some pt =>
      simp only [List.append_eq,
        ih ct rest (n + 1) (fun p hp => hpre p (by simp [hp])) hct,
        Except.map, List.length_cons]
      have e : n + 1 + cs.length = n + (cs.length + 1) := by omega
      rw [e]

/-- C9: `decrypt_archives` reads parts in ascending order from part
number 1 and stops at the first missing number without error (parts past
the gap are ignored); and if some part fails authenticated decryption
while all before it succeed, the whole decode fails with a corrupt-part
error carrying that part's sequence number. -/
theorem c9_gap_and_corrupt (box : SecretBox) :
    (∀ (pre : List (List Nat)) (rest : List (Option (List Nat))) (init : List Nat),
      decrypt_archives box init (pre.map some ++ none :: rest) =
        decrypt_archives box init (pre.map some)) ∧
    (∀ (pre : List (List Nat)) (ct : List Nat) (rest : List (Option (List Nat)))
        (init : List Nat),
      (∀ p ∈ pre, (box.decrypt p).isSome) → box.decrypt ct = none →
      decrypt_archives box init (pre.map some ++ some ct :: rest) =
        .error (.corruptPart (pre.length + 1))) := by
  constructor
  · intro pre rest init
    unfold decrypt_archives
    rw [decrypt_loop_gap box pre rest 1]
  · intro pre ct rest init hpre hct
    unfold decrypt_archives
    rw [decrypt_loop_corrupt box pre ct rest 1 hpre hct]
    simp only [Except.map]
    have e : 1 + pre.length = pre.length + 1 := by omega
    rw [e]

/-- C9 witness: a gap after part 1 ends the decode with part 1's contents,
and a rejected third part fails the decode with sequence number 3. -/
theorem c9_gap_and_corrupt_witness :
    decrypt_archives rejectZeroBox [] ([[1]].map some ++ none :: [some [2]]) =
        decrypt_archives rejectZeroBox [] ([[1]].map some) ∧
      decrypt_archives rejectZeroBox [] ([[1], [2]].map some ++ some [0] :: []) =
        .error (.corruptPart 3) :=
  ⟨(c9_gap_and_corrupt rejectZeroBox).1 [[1]] [some [2]] [],
   (c9_gap_and_corrupt rejectZeroBox).2 [[1], [2]] [0] [] [] (by decide) (by decide)⟩

/-- `UPLOAD_ATTEMPTS` constant of the source (attempt budget per part). -/
def UPLOAD_ATTEMPTS : Nat := 6

/-- `BACKOFF_MODIFIER` constant of the source (seconds, quadratic factor). -/
def BACKOFF_MODIFIER : Nat := 225

/-- Stub modelling the remote transport as seen by one part's retry loop:
`getUploadUrl i` is what `b2_get_upload_url` returns on attempt `i`
(`none` models its failure path, which returns `None, None` after catching
any error), and `uploadFile i` is `b2_upload_file`'s boolean outcome on
attempt `i` (`false` covers both a rejected response and a connection
error, both caught inside that function). -/
structure UploadStub where
  getUploadUrl : Nat → Option (String × String)
  uploadFile : Nat → Bool

/-- The `for i in range(upload_attempts)` loop of `upload_archive_file_part`:
on each attempt fetch a fresh upload target and try the upload; on success
return `true` at once; otherwise sleep `backoff_modifier * i ** 2` seconds
unless this was the last attempt.  The result records the boolean outcome,
the number of attempts performed, and the list of sleep durations in order.
The fuel argument is the number of remaining loop iterations. -/
def attempt_succeeds (stub : UploadStub) (i : Nat) : Bool :=
  match stub.getUploadUrl i with
  | some _ => stub.uploadFile i
  | none => false

def upload_part_loop (stub : UploadStub) (upload_attempts backoff_modifier : Nat) :
    Nat → Nat → Bool × Nat × List Nat
  | _, 0 => (false, 0, [])
  | i, fuel + 1 =>
    if attempt_succeeds stub i then (true, 1, [])
    else if i < upload_attempts - 1 then
      let rest := upload_part_loop stub upload_attempts backoff_modifier (i + 1) fuel
      (rest.1, rest.2.1 + 1, backoff_modifier * i ^ 2 :: rest.2.2)
    else (false, 1, [])

theorem upload_part_loop_one_step (stub : UploadStub)
    (upload_attempts backoff_modifier i fuel : Nat) :
    upload_part_loop stub upload_attempts backoff_modifier i (fuel + 1) =
      if attempt_succeeds stub i then (true, 1, [])
      else if i < upload_attempts - 1 then
        ((upload_part_loop stub upload_attempts backoff_modifier (i + 1) fuel).1,
          (upload_part_loop stub upload_attempts backoff_modifier (i + 1) fuel).2.1 + 1,
          backoff_modifier * i ^ 2 ::
            (upload_part_loop stub upload_attempts backoff_modifier (i + 1) fuel).2.2)
      else (false, 1, []) := rfl

/-- `upload_archive_file_part`: run the retry loop from attempt 0 with the
full attempt budget; after an exhausted budget the failure is returned as
`false` (the function never raises: both transport helpers catch their
errors). -/
def upload_archive_file_part (stub : UploadStub) (upload_attempts backoff_modifier : Nat) :
    Bool × Nat × List Nat :=
  upload_part_loop stub upload_attempts backoff_modifier 0 upload_attempts

theorem upload_part_loop_all_fail (stub : UploadStub) (attempts modifier : Nat)
    (hfail : ∀ i, stub.getUploadUrl i = none ∨ stub.uploadFile i = false) :
    ∀ (fuel i : Nat), i + fuel = attempts →
      upload_part_loop stub attempts modifier i fuel =
        (false, fuel, (consec i (fuel - 1)).map (fun j => modifier * j ^ 2)) := by
  intro fuel
  induction fuel with
  | zero => intro i h; simp [upload_part_loop, consec]
  | succ fuel ih =>
    intro i h
    have hatt : attempt_succeeds stub i = false := by
      unfold attempt_succeeds
      rcases hfail i with h1 | h1
      · simp [h1]
      · cases hg : stub.getUploadUrl i <;> simp [h1]
    cases fuel with
    | zero =>
      have hnlt : ¬ i < attempts - 1 := by omega
      rw [upload_part_loop_one_step, hatt]
      simp [hnlt, consec]
    | succ k =>
      have hlt : i < attempts - 1 := by omega
      rw [upload_part_loop_one_step, hatt, ih (i + 1) (by omega)]
      simp [hlt, consec]

/-- C5: when every attempt's upload target fetch or upload fails, the part
upload performs exactly the configured attempt budget of attempts and
returns failure, sleeping `modifier * i ^ 2` seconds between attempts for
`i = 0 .. budget - 2` and not sleeping after the final attempt (the sleep
list has `budget - 1` entries, indexed consecutively from 0). -/
theorem c5_retry_exhaustion (stub : UploadStub) (attempts modifier : Nat)
    (hfail : ∀ i, stub.getUploadUrl i = none ∨ stub.uploadFile i = false) :
    upload_archive_file_part stub attempts modifier =
      (false, attempts, (consec 0 (attempts - 1)).map (fun i => modifier * i ^ 2)) := by
  unfold upload_archive_file_part
  rw [upload_part_loop_all_fail stub attempts modifier hfail attempts 0 (by omega)]

/-- A stub whose upload target is never obtainable. -/
def alwaysFailStub : UploadStub := ⟨fun _ => none, fun _ => false⟩

/-- C5 witness: with the default budget 6 and modifier 225, an always
failing part makes exactly 6 attempts, fails, and sleeps 0, 225, 900,
2025, 3600 seconds between them. -/
theorem c5_retry_exhaustion_witness :
    upload_archive_file_part alwaysFailStub UPLOAD_ATTEMPTS BACKOFF_MODIFIER =
      (false, 6, [0, 225, 900, 2025, 3600]) := by
  rw [c5_retry_exhaustion alwaysFailStub UPLOAD_ATTEMPTS BACKOFF_MODIFIER
    (fun _ => Or.inl rfl)]
  rfl

/-- `upload_archive_files`: iterate every volume and, within it, every
matching part file in sorted order, uploading each through the retry loop;
the per-part boolean is recorded but never stops the iteration (the source
drops it, see its TODO).  Account authorization is modelled as already
done and the scheduler pause as disabled; neither changes which parts are
visited. -/
def upload_archive_files (volumes : List String) (partsOf : String → List String)
    (stub : String → String → UploadStub) : List (String × String × Bool) :=
  volumes.flatMap (fun v => (partsOf v).map (fun p =>
    (v, p, (upload_archive_file_part (stub v p) UPLOAD_ATTEMPTS BACKOFF_MODIFIER).1)))

/-- C8: a part whose upload fails (even after an exhausted budget) does not
abort the run: whatever the transport stub does, the orchestrator visits
exactly every part of every volume in order, and each part's failure is
surfaced only as its recorded boolean return value. -/
theorem c8_failures_do_not_abort (volumes : List String) (partsOf : String → List String)
    (stub : String → String → UploadStub) :
    (upload_archive_files volumes partsOf stub).map (fun r => (r.1, r.2.1)) =
      volumes.flatMap (fun v => (partsOf v).map (fun p => (v, p))) ∧
    ∀ r ∈ upload_archive_files volumes partsOf stub,
      r.2.2 = (upload_archive_file_part (stub r.1 r.2.1) UPLOAD_ATTEMPTS BACKOFF_MODIFIER).1 := by
  constructor
  · simp [upload_archive_files, List.map_flatMap, List.map_map, Function.comp_def]
  · intro r hr
    simp only [upload_archive_files, List.mem_flatMap, List.mem_map] at hr
    obtain ⟨v, hv, p, hp, rfl⟩ := hr
    rfl

/-- Part lists for the C8 witness: two parts in one volume, one in another. -/
def demoParts : String → List String := fun v => if v = "a" then ["p1", "p2"] else ["q1"]

/-- C8 witness: with a transport that always fails, every part of both
volumes is still visited, in order. -/
theorem c8_failures_do_not_abort_witness :
    (upload_archive_files ["a", "b"] demoParts (fun _ _ => alwaysFailStub)).map
        (fun r => (r.1, r.2.1)) =
      [("a", "p1"), ("a", "p2"), ("b", "q1")] := by
  rw [(c8_failures_do_not_abort ["a", "b"] demoParts (fun _ _ => alwaysFailStub)).1]
  rfl

/-- A destructive operation performed during `verify_and_cleanup`, in the
order attempted: removing a current-period local encrypted part file,
deleting a remote object (by name and file id), or removing an old local
archive file. -/
inductive Action where
  | deleteLocalPart (name : String)
  | deleteRemote (name fileId : String)
  | deleteLocalArchive (name : String)
  deriving DecidableEq, Repr

/-- `verify_uploaded_files`: for each volume, list the remote objects under
the key `{volume}/{thismonth}` and return false if the listing is empty
(which is also how a failed listing request surfaces, since
`b2_list_files` returns `[]` after catching any error) or if some local
encrypted part file of the volume has no remote object whose key is
`{volume}/{part file name}`; return true otherwise.  `listFiles` is the
listing per key, `localParts` the volume's sorted local part files. -/
def verify_uploaded_files (thismonth : String) (volumes : List String)
    (listFiles : String → List (String × String))
    (localParts : String → List String) : Bool :=
  volumes.all (fun v =>
    let files := listFiles (v ++ "/" ++ thismonth)
    !files.isEmpty &&
      (localParts v).all (fun p => files.any (fun fi => fi.1 == v ++ "/" ++ p)))

/-- `delete_current_local_archive_file_parts`: remove every local encrypted
part file whose name carries the current period tag (`partsFromDate` is
`list_local_archive_file_parts_from_date`). -/
def delete_current_local_archive_file_parts (partsFromDate : String → List String)
    (thismonth : String) : List Action :=
  (partsFromDate thismonth).map Action.deleteLocalPart

/-- `b2_delete_old_files`: for each volume, list the remote objects under
`{volume}/{old_file_date}` and delete each returned (name, id); an empty
listing is only logged and skipped. -/
def b2_delete_old_files (volumes : List String)
    (listFiles : String → List (String × String)) (oldFileDate : String) :
    List Action :=
  volumes.flatMap (fun v =>
    (listFiles (v ++ "/" ++ oldFileDate)).map (fun fi => Action.deleteRemote fi.1 fi.2))

/-- `delete_old_local_archive_files`: remove every local archive file whose
name carries the old period tag (`archivesFromDate` is
`list_local_archives_from_date`). -/
def delete_old_local_archive_files (archivesFromDate : String → List String)
    (oldFileDate : String) : List Action :=
  (archivesFromDate oldFileDate).map Action.deleteLocalArchive

/-- `verify_and_cleanup`: after re-authorizing (modelled as successful),
delete the current period's local part files only if verification
succeeded, then unconditionally delete old remote objects and old local
archive files.  The result is the sequence of destructive actions the run
performs. -/
def verify_and_cleanup (thismonth oldFileDate : String) (volumes : List String)
    (listFiles : String → List (String × String))
    (localParts partsFromDate archivesFromDate : String → List String) : List Action :=
  (if verify_uploaded_files thismonth volumes listFiles localParts then
    delete_current_local_archive_file_parts partsFromDate thismonth
  else []) ++
    b2_delete_old_files volumes listFiles oldFileDate ++
    delete_old_local_archive_files archivesFromDate oldFileDate

/-- Characterization of `verify_uploaded_files`: it returns true exactly
when, for every volume, the remote listing under the volume's current
prefix is nonempty and every local part file's key occurs in it. -/
theorem verify_uploaded_files_eq_true (thismonth : String) (volumes : List String)
    (listFiles : String → List (String × String))
    (localParts : String → List String) :
    verify_uploaded_files thismonth volumes listFiles localParts = true ↔
      ∀ v ∈ volumes, listFiles (v ++ "/" ++ thismonth) ≠ [] ∧
        ∀ p ∈ localParts v, ∃ fi ∈ listFiles (v ++ "/" ++ thismonth),
          fi.1 = v ++ "/" ++ p := by
  simp [verify_uploaded_files, List.all_eq_true, List.any_eq_true,
    List.isEmpty_iff, Bool.and_eq_true, beq_iff_eq]

-- Concrete stubs exercising a failed verification with old data present.

def cexListFiles : String → List (String × String) :=
  fun pfx => if pfx = "v/old" then [("v/old-v.tar.gz.enc.part001", "id1")] else []

def cexLocalParts : String → List String := fun _ => ["m-v.tar.gz.enc.part001"]

def cexPartsFromDate : String → List String := fun _ => []

def cexArchivesFromDate : String → List String :=
  fun d => if d = "old" then ["old-v.tar.gz"] else []

/-- C1 counterexample: a run whose verification returns false (empty
current listing) still performs destructive actions, because
`verify_and_cleanup` calls `b2_delete_old_files` and
`delete_old_local_archive_files` unconditionally. -/
theorem c1_counterexample :
    verify_uploaded_files "m" ["v"] cexListFiles cexLocalParts = false ∧
      verify_and_cleanup "m" "old" ["v"] cexListFiles cexLocalParts
        cexPartsFromDate cexArchivesFromDate ≠ [] := by
  constructor
  · decide
  · decide

/-- C1 (amended): a run whose verification returns false does not invoke
`delete_current_local_archive_file_parts` — no current-period local part
is deleted — but it still runs `b2_delete_old_files` and
`delete_old_local_archive_files`, so old remote objects and old local
archives are deleted. -/
theorem c1_failed_verify_skips_current_deletion (thismonth oldFileDate : String)
    (volumes : List String) (listFiles : String → List (String × String))
    (localParts partsFromDate archivesFromDate : String → List String)
    (h : verify_uploaded_files thismonth volumes listFiles localParts = false) :
    verify_and_cleanup thismonth oldFileDate volumes listFiles localParts
      partsFromDate archivesFromDate =
      b2_delete_old_files volumes listFiles oldFileDate ++
        delete_old_local_archive_files archivesFromDate oldFileDate := by
  simp [verify_and_cleanup, h]

/-- C1 witness: the amended statement at the concrete failing-verify run. -/
theorem c1_failed_verify_skips_current_deletion_witness :
    verify_and_cleanup "m" "old" ["v"] cexListFiles cexLocalParts
      cexPartsFromDate cexArchivesFromDate =
      b2_delete_old_files ["v"] cexListFiles "old" ++
        delete_old_local_archive_files cexArchivesFromDate "old" :=
  c1_failed_verify_skips_current_deletion "m" "old" ["v"] cexListFiles cexLocalParts
    cexPartsFromDate cexArchivesFromDate (by decide)

/-- C2: verification returns true exactly when every volume's current
listing is nonempty (a failed listing surfaces as empty, hence fails
verification) and every local part's key appears in it; and a
current-period local part file is deleted by the run precisely when
verification returned true for every volume and the file is among the
current-period parts. -/
theorem c2_verify_gated_deletion (thismonth oldFileDate : String)
    (volumes : List String) (listFiles : String → List (String × String))
    (localParts partsFromDate archivesFromDate : String → List String) :
    (verify_uploaded_files thismonth volumes listFiles localParts = true ↔
      ∀ v ∈ volumes, listFiles (v ++ "/" ++ thismonth) ≠ [] ∧
        ∀ p ∈ localParts v, ∃ fi ∈ listFiles (v ++ "/" ++ thismonth),
          fi.1 = v ++ "/" ++ p) ∧
    (∀ name, Action.deleteLocalPart name ∈
        verify_and_cleanup thismonth oldFileDate volumes listFiles localParts
          partsFromDate archivesFromDate ↔
      (verify_uploaded_files thismonth volumes listFiles localParts = true ∧
        name ∈ partsFromDate thismonth)) := by
  constructor
  · exact verify_uploaded_files_eq_true thismonth volumes listFiles localParts
  · intro name
    unfold verify_and_cleanup
    by_cases hv : verify_uploaded_files thismonth volumes listFiles localParts = true
    · simp [hv, delete_current_local_archive_file_parts, b2_delete_old_files,
        delete_old_local_archive_files, List.mem_append, List.mem_flatMap]
    · simp [hv, b2_delete_old_files, delete_old_local_archive_files,
        List.mem_append, List.mem_flatMap]

-- Concrete stubs exercising a successful verification.

def okListFiles : String → List (String × String) :=
  fun pfx => if pfx = "v/m" then [("v/p1", "idp1")] else []

def okLocalParts : String → List String := fun _ => ["p1"]

def okPartsFromDate : String → List String := fun _ => ["p1"]

/-- C2 witness: with every local part present remotely, verification
succeeds and the current-period part is deleted by the run. -/
theorem c2_verify_gated_deletion_witness :
    verify_uploaded_files "m" ["v"] okListFiles okLocalParts = true ∧
      Action.deleteLocalPart "p1" ∈
        verify_and_cleanup "m" "old" ["v"] okListFiles okLocalParts
          okPartsFromDate cexArchivesFromDate := by
  have h := c2_verify_gated_deletion "m" "old" ["v"] okListFiles okLocalParts
    okPartsFromDate cexArchivesFromDate
  have hv : verify_uploaded_files "m" ["v"] okListFiles okLocalParts = true :=
    h.1.mpr (by decide)
  exact ⟨hv, (h.2 "p1").mpr ⟨hv, by decide⟩⟩

/-- The store-side key-prefix match of `b2_list_file_names`: whether the
string `pfx` is an initial segment of the object key `s`. -/
def starts_with (pfx s : String) : Bool :=
  pfx.toList.isPrefixOf s.toList

/-- `b2_list_files`: POST `b2_list_file_names` with a key prefix and a
`maxFileCount` (the source never overrides the default 1000): the store
returns at most `maxFileCount` matching `(fileName, fileId)` pairs in
store order; on a non-200 response, a connection error or any other
exception the function logs and returns `[]`.  `remote` is the bucket's
full listing and `ok` models whether the request succeeded. -/
def b2_list_files (ok : Bool) (remote : List (String × String)) (pfx : String)
    (maxFileCount : Nat) : List (String × String) :=
  if ok then (remote.filter (fun fi => starts_with pfx fi.1)).take maxFileCount
  else []

/-- `verify_uploaded_files` wired to the real `b2_list_files`, which it
calls with the default `max_file_count = 1000`. -/
def verify_uploaded_files_b2 (ok : Bool) (remote : List (String × String))
    (thismonth : String) (volumes : List String)
    (localParts : String → List String) : Bool :=
  verify_uploaded_files thismonth volumes
    (fun pfx => b2_list_files ok remote pfx 1000) localParts

/-- `b2_delete_old_files` wired to the real `b2_list_files`, which it
calls with the default `max_file_count = 1000`. -/
def b2_delete_old_files_b2 (ok : Bool) (remote : List (String × String))
    (volumes : List String) (oldFileDate : String) : List Action :=
  b2_delete_old_files volumes (fun pfx => b2_list_files ok remote pfx 1000) oldFileDate

/-- C10: every remote listing call returns at most `maxFileCount` entries
(1000 at both call sites); verification fails whenever a local part's key
is absent from that truncated view, even if the object exists beyond the
first 1000 matches; and every old remote object the run deletes comes out
of a listing truncated to 1000 entries. -/
theorem c10_listing_truncation :
    (∀ (ok : Bool) (remote : List (String × String)) (pfx : String) (n : Nat),
      (b2_list_files ok remote pfx n).length ≤ n) ∧
    (∀ (ok : Bool) (remote : List (String × String)) (thismonth : String)
        (volumes : List String) (localParts : String → List String) (v p : String),
      v ∈ volumes → p ∈ localParts v →
      (v ++ "/" ++ p) ∉ (b2_list_files ok remote (v ++ "/" ++ thismonth) 1000).map Prod.fst →
      verify_uploaded_files_b2 ok remote thismonth volumes localParts = false) ∧
    (∀ (ok : Bool) (remote : List (String × String)) (volumes : List String)
        (oldFileDate : String) (a : Action),
      a ∈ b2_delete_old_files_b2 ok remote volumes oldFileDate →
      ∃ v ∈ volumes, ∃ fi ∈ b2_list_files ok remote (v ++ "/" ++ oldFileDate) 1000,
        a = Action.deleteRemote fi.1 fi.2) := by
  refine ⟨?_, ?_, ?_⟩
  · intro ok remote pfx n
    unfold b2_list_files
    cases ok with
    | false => simp
    | true =>
      simp only [if_true]
      rw [List.length_take]
      exact min_le_left _ _
  · intro ok remote thismonth volumes localParts v p hv hp hnot
    cases hver : verify_uploaded_files_b2 ok remote thismonth volumes localParts with
    | false => rfl
    | true =>
      exfalso
      have hchar := (verify_uploaded_files_eq_true thismonth volumes
        (fun pfx => b2_list_files ok remote pfx 1000) localParts).mp hver
      obtain ⟨-, hall⟩ := hchar v hv
      obtain ⟨fi, hfi, hkey⟩ := hall p hp
      exact hnot (List.mem_map.mpr ⟨fi, hfi, hkey⟩)
  · intro ok remote volumes oldFileDate a ha
    unfold b2_delete_old_files_b2 b2_delete_old_files at ha
    obtain ⟨v, hv, ha⟩ := List.mem_flatMap.mp ha
    obtain ⟨fi, hfi, rfl⟩ := List.mem_map.mp ha
    exact ⟨v, hv, fi, hfi, rfl⟩

/-- A remote store holding 1001 objects under the prefix of a single
volume and period: the verified object's key sits at position 1001, past
the listing cap. -/
def truncRemote : List (String × String) :=
  List.replicate 1000 ("v/m1", "i") ++ [("v/m2", "j")]

/-- C10 witness: the key `v/m2` exists in the remote store, but the
listing observed by verification caps at 1000 entries, so verification
reports failure for the volume even though every part was uploaded. -/
theorem c10_listing_truncation_witness :
    ("v/m2", "j") ∈ truncRemote ∧
      verify_uploaded_files_b2 true truncRemote "m" ["v"]
        (fun _ => ["m2"]) = false := by
  constructor
  · show ("v/m2", "j") ∈ List.replicate 1000 ("v/m1", "i") ++ [("v/m2", "j")]
    exact List.mem_append_right _ (List.mem_singleton.mpr rfl)
  · apply c10_listing_truncation.2.1 true truncRemote "m" ["v"] (fun _ => ["m2"]) "v" "m2"
      (by decide) (by decide)
    have hfil : truncRemote.filter
        (fun fi => starts_with ("v" ++ "/" ++ "m") fi.1) = truncRemote := by
      rw [List.filter_eq_self]
      intro fi hfi
      rcases List.mem_append.mp hfi with h1 | h1
      · rw [List.eq_of_mem_replicate h1]; decide
      · rw [List.mem_singleton.mp h1]; decide
    have hlist : b2_list_files true truncRemote ("v" ++ "/" ++ "m") 1000 =
        List.replicate 1000 ("v/m1", "i") := by
      unfold b2_list_files
      rw [if_pos rfl, hfil]
      unfold truncRemote
      exact List.take_left' (List.length_replicate 1000 _)
    rw [hlist, List.map_replicate]
    intro hmem
    have := List.eq_of_mem_replicate hmem
    exact absurd this (by decide)

/-- A naive `datetime.datetime` value at minute resolution (the scheduler
never inspects seconds). -/
structure PyDateTime where
  year : Nat
  month : Nat
  day : Nat
  hour : Nat
  minute : Nat
  deriving DecidableEq, Repr

/-- Gregorian leap-year rule, as Python's `datetime` uses. -/
def isLeapYear (y : Nat) : Bool :=
  decide ((y % 4 = 0 ∧ y % 100 ≠ 0) ∨ y % 400 = 0)

/-- Number of days in month `m` of year `y`. -/
def daysInMonth (y m : Nat) : Nat :=
  if m = 2 then (if isLeapYear y then 29 else 28)
  else if m = 4 ∨ m = 6 ∨ m = 9 ∨ m = 11 then 30
  else 31

/-- The validity check Python's `datetime` constructor performs: year in
`1..9999`, month in `1..12`, day in `1..daysInMonth`, hour in `0..23`,
minute in `0..59`; violating it raises `ValueError`. -/
def validDate (y m d h mi : Nat) : Bool :=
  decide (1 ≤ y ∧ y ≤ 9999 ∧ 1 ≤ m ∧ m ≤ 12 ∧ 1 ≤ d ∧ d ≤ daysInMonth y m ∧
    h ≤ 23 ∧ mi ≤ 59)

/-- `datetime(year, month, day, hour)`: `none` models the `ValueError`
raised for an out-of-range field. -/
def mkDatetime (y m d h : Nat) : Option PyDateTime :=
  if validDate y m d h 0 then some ⟨y, m, d, h, 0⟩ else none

/-- Injective linearization of a valid datetime, ordering datetimes the
way Python compares them (lexicographically by field; the factors bound
each field's valid range). -/
def dtKey (t : PyDateTime) : Nat :=
  (((t.year * 13 + t.month) * 32 + t.day) * 24 + t.hour) * 60 + t.minute

/-- `ACTIVE_PERIOD_BEGIN_HOUR` constant of the source. -/
def ACTIVE_PERIOD_BEGIN_HOUR : Nat := 20

/-- `ACTIVE_PERIOD_END_HOUR` constant of the source. -/
def ACTIVE_PERIOD_END_HOUR : Nat := 8

/-- `active_upload_period`: compute the window start as the begin hour of
today (if `check_time.hour` has reached it) or of `check_time.day - 1`
otherwise, the window end as the end hour of `active_period_begin.day + 1`,
and test `begin <= check_time < end`.  Both interior datetimes are built
with raw day arithmetic (`day - 1`, `day + 1`) and no month rollover, so
the construction can raise `ValueError`, modelled as `none`. -/
def active_upload_period (check_time : PyDateTime)
    (active_period_begin_hour active_period_end_hour : Nat) : Option Bool :=
  (if check_time.hour ≥ active_period_begin_hour then
    mkDatetime check_time.year check_time.month check_time.day active_period_begin_hour
  else
    mkDatetime check_time.year check_time.month (check_time.day - 1)
      active_period_begin_hour).bind fun apb =>
  (mkDatetime check_time.year check_time.month (apb.day + 1)
      active_period_end_hour).map fun ape =>
  decide (dtKey apb ≤ dtKey check_time ∧ dtKey check_time < dtKey ape)

/-- C7: the window test is not total.  On the first day of a month before
the begin hour the code builds `datetime(y, m, 0, 20)` (day 0), and at the
begin hour on the last day of a month it builds a day past the month's
end; both raise `ValueError` where the claim requires a boolean. -/
theorem c7_not_total :
    active_upload_period ⟨2025, 3, 1, 3, 0⟩
        ACTIVE_PERIOD_BEGIN_HOUR ACTIVE_PERIOD_END_HOUR = none ∧
      active_upload_period ⟨2025, 1, 31, 20, 0⟩
        ACTIVE_PERIOD_BEGIN_HOUR ACTIVE_PERIOD_END_HOUR = none := by
  constructor <;> decide

/-- C6 counterexample: at exactly the start hour on the last day of a
month the claim requires `true`, but the code raises (`datetime` with a
day past the month's end) instead of returning it. -/
theorem c6_counterexample :
    active_upload_period ⟨2025, 6, 30, 20, 0⟩
        ACTIVE_PERIOD_BEGIN_HOUR ACTIVE_PERIOD_END_HOUR ≠ some true := by
  decide

/-- C6 (amended: instants whose day arithmetic stays inside the month):
with the default 20:00 to 08:00 window, an instant exactly at the start
hour is inside the window (when the next calendar day exists in the same
month), an instant exactly at the end hour on the following day is outside
it, and an instant one minute before the start hour is outside it (both
for days after the 1st, so the previous day exists in the same month). -/
theorem c6_window_boundaries :
    (∀ y m d, validDate y m d 20 0 = true → d + 1 ≤ daysInMonth y m →
      active_upload_period ⟨y, m, d, 20, 0⟩
        ACTIVE_PERIOD_BEGIN_HOUR ACTIVE_PERIOD_END_HOUR = some true) ∧
    (∀ y m d, validDate y m d 8 0 = true → 2 ≤ d →
      active_upload_period ⟨y, m, d, 8, 0⟩
        ACTIVE_PERIOD_BEGIN_HOUR ACTIVE_PERIOD_END_HOUR = some false) ∧
    (∀ y m d, validDate y m d 19 59 = true → 2 ≤ d →
      active_upload_period ⟨y, m, d, 19, 59⟩
        ACTIVE_PERIOD_BEGIN_HOUR ACTIVE_PERIOD_END_HOUR = some false) := by
  refine ⟨?_, ?_, ?_⟩
  · intro y m d h1 h2
    have h1' := h1
    simp only [validDate, decide_eq_true_eq] at h1'
    have hv2 : validDate y m (d + 1) 8 0 = true := by
      simp only [validDate, decide_eq_true_eq]
      omega
    have e1 : mkDatetime y m d 20 = some ⟨y, m, d, 20, 0⟩ := by
      rw [mkDatetime, if_pos h1]
    have e2 : mkDatetime y m (d + 1) 8 = some ⟨y, m, d + 1, 8, 0⟩ := by
      rw [mkDatetime, if_pos hv2]
    simp only [active_upload_period, ACTIVE_PERIOD_BEGIN_HOUR, ACTIVE_PERIOD_END_HOUR,
      ge_iff_le, le_refl, if_true, e1, Option.bind, e2, Option.map,
      Option.some.injEq, decide_eq_true_eq, dtKey, true_and, and_true]
    omega
  · intro y m d h1 h2
    have h1' := h1
    simp only [validDate, decide_eq_true_eq] at h1'
    have hv1 : validDate y m (d - 1) 20 0 = true := by
      simp only [validDate, decide_eq_true_eq]
      omega
    have hv2 : validDate y m (d - 1 + 1) 8 0 = true := by
      simp only [validDate, decide_eq_true_eq]
      omega
    have e1 : mkDatetime y m (d - 1) 20 = some ⟨y, m, d - 1, 20, 0⟩ := by
      rw [mkDatetime, if_pos hv1]
    have e2 : mkDatetime y m (d - 1 + 1) 8 = some ⟨y, m, d - 1 + 1, 8, 0⟩ := by
      rw [mkDatetime, if_pos hv2]
    have hno : ¬ ((20 : Nat) ≤ 8) := by decide
    simp only [active_upload_period, ACTIVE_PERIOD_BEGIN_HOUR, ACTIVE_PERIOD_END_HOUR,
      ge_iff_le, hno, if_false, e1, Option.bind, e2, Option.map,
      Option.some.injEq, decide_eq_false_iff_not, dtKey]
    omega
  · intro y m d h1 h2
    have h1' := h1
    simp only [validDate, decide_eq_true_eq] at h1'
    have hv1 : validDate y m (d - 1) 20 0 = true := by
      simp only [validDate, decide_eq_true_eq]
      omega
    have hv2 : validDate y m (d - 1 + 1) 8 0 = true := by
      simp only [validDate, decide_eq_true_eq]
      omega
    have e1 : mkDatetime y m (d - 1) 20 = some ⟨y, m, d - 1, 20, 0⟩ := by
      rw [mkDatetime, if_pos hv1]
    have e2 : mkDatetime y m (d - 1 + 1) 8 = some ⟨y, m, d - 1 + 1, 8, 0⟩ := by
      rw [mkDatetime, if_pos hv2]
    have hno : ¬ ((20 : Nat) ≤ 19) := by decide
    simp only [active_upload_period, ACTIVE_PERIOD_BEGIN_HOUR, ACTIVE_PERIOD_END_HOUR,
      ge_iff_le, hno, if_false, e1, Option.bind, e2, Option.map,
      Option.some.injEq, decide_eq_false_iff_not, dtKey]
    omega

/-- C6 witness: the three boundary behaviours at 15 June 2025. -/
theorem c6_window_boundaries_witness :
    active_upload_period ⟨2025, 6, 15, 20, 0⟩
        ACTIVE_PERIOD_BEGIN_HOUR ACTIVE_PERIOD_END_HOUR = some true ∧
      active_upload_period ⟨2025, 6, 15, 8, 0⟩
        ACTIVE_PERIOD_BEGIN_HOUR ACTIVE_PERIOD_END_HOUR = some false ∧
      active_upload_period ⟨2025, 6, 15, 19, 59⟩
        ACTIVE_PERIOD_BEGIN_HOUR ACTIVE_PERIOD_END_HOUR = some false :=
  ⟨c6_window_boundaries.1 2025 6 15 (by decide) (by decide),
   c6_window_boundaries.2.1 2025 6 15 (by decide) (by decide),
   c6_window_boundaries.2.2 2025 6 15 (by decide) (by decide)⟩

end B2Backup
